import Mathlib

/-
  Verification development for the AirCab-Sync ride-pooling service.

  The TypeScript source is shallowly embedded: JavaScript numbers are
  modelled as rationals (ℚ), database rows as Lean structures, fallible
  transactional operations as `Except String` computations over an explicit
  database state, and thrown errors as `.error` results (a throw inside a
  transaction rolls the whole transaction back, so an `.error` result
  carries no mutated state).

  The Haversine great-circle distance (`calculateDistance` in
  `src/utils/distance.ts`) is a floating-point trigonometric computation;
  it is treated as an abstract distance oracle
  `calculateDistance : ℚ → ℚ → ℚ → ℚ → ℚ` (lat₁ lon₁ lat₂ lon₂ ↦ km),
  a parameter of every definition that consumes distances.  All control
  flow downstream of the oracle is embedded exactly as written in the
  source.  Likewise the demand factor (sampled from Redis) and
  database-generated identifiers are oracle inputs.
-/

namespace AirCab

/- Configuration defaults from `src/config/index.ts` (`config.ridePooling`),
   using the documented environment-variable defaults. -/
namespace Config

def maxPassengersPerPool : ℤ := 4
def maxLuggageCapacity : ℤ := 8
def maxDetourToleranceKm : ℚ := 5
def baseFare : ℚ := 50
def perKmRate : ℚ := 15
def surgeMultiplierMax : ℚ := 5/2
def poolDiscountPercent : ℚ := 20

end Config

/-- JavaScript `Math.min` on two numbers (an explicit conditional, which
    keeps every embedded definition kernel-computable). -/
def mathMin (a b : ℚ) : ℚ := if a ≤ b then a else b

/-- JavaScript `Math.max` on two numbers. -/
def mathMax (a b : ℚ) : ℚ := if a ≤ b then b else a

/-- Rounding of a nonnegative amount to 2 decimals, as performed by
    JavaScript `x.toFixed(2)` followed by `parseFloat` (round half away
    from zero, which for the nonnegative quantities involved is half-up). -/
def round2 (x : ℚ) : ℚ := ((x * 100 + 1/2).floor : ℚ) / 100

/-- Ride lifecycle status (`RideStatus` in `src/models/types.ts`; the values
    used by the service code are `pending`, `matched`, `cancelled`,
    `completed`, with `confirmed` listed in the data model). -/
inductive RideStatus where
  | pending
  | matched
  | confirmed
  | cancelled
  | completed
deriving DecidableEq

/-- Pool lifecycle status (`PoolStatus` in `src/models/types.ts`). -/
inductive PoolStatus where
  | forming
  | confirmed
  | in_progress
  | completed
  | cancelled
deriving DecidableEq

/-- A `ride_requests` row.  `requested_at` is an epoch timestamp
    (milliseconds), coordinates and quantities are JavaScript numbers,
    modelled as rationals/integers. -/
structure RideRequest where
  id : String
  user_id : String
  pickup_latitude : ℚ
  pickup_longitude : ℚ
  dropoff_latitude : ℚ
  dropoff_longitude : ℚ
  passenger_count : ℤ
  luggage_count : ℤ
  max_detour_km : ℚ
  status : RideStatus
  requested_at : ℤ
deriving DecidableEq

/-- A `ride_pools` row. -/
structure RidePool where
  id : String
  pool_code : String
  status : PoolStatus
  current_passenger_count : ℤ
  current_luggage_count : ℤ
  max_passengers : ℤ
  max_luggage : ℤ
deriving DecidableEq

/-- A `pool_members` row. -/
structure PoolMember where
  pool_id : String
  ride_request_id : String
  pickup_sequence : ℤ
  dropoff_sequence : ℤ
  detour_distance_km : ℚ
  price : ℚ
deriving DecidableEq

/-- A candidate pool bundled with its current members and their requests
    (`PoolCandidate` in `src/services/matchingEngine.ts`). -/
structure PoolCandidate where
  pool : RidePool
  existingMembers : List PoolMember
  existingRequests : List RideRequest
deriving DecidableEq

/-- Result type of the batch pooling routine (`MatchResult` in
    `src/models/types.ts`).  No code path in the repository ever
    constructs a value of this type, so no constructor is needed for the
    embedding. -/
inductive MatchResult : Type

/-- Kind of a route stop. -/
inductive StopType where
  | pickup
  | dropoff
deriving DecidableEq

/-- An ephemeral route stop, as built in
    `MatchingEngine.analyzeRouteWithNewMember`: the `id` is the request id
    suffixed with `"-pickup"` or `"-dropoff"`, while `requestId` holds the
    bare request id. -/
structure Stop where
  id : String
  lat : ℚ
  lon : ℚ
  type : StopType
  userId : String
  requestId : String
deriving DecidableEq

instance : Inhabited Stop := ⟨⟨"", 0, 0, .pickup, "", ""⟩⟩

/-! ## PricingEngine (`src/services/pricingService.ts`) -/

/-- The price breakdown value returned by `PricingService.calculatePrice`. -/
structure PriceBreakdown where
  base_fare : ℚ
  distance_fare : ℚ
  subtotal : ℚ
  surge_multiplier : ℚ
  surge_amount : ℚ
  pool_discount : ℚ
  final_price : ℚ
  demand_factor : ℚ
  distance_km : ℚ
deriving DecidableEq

/-- Source `PricingService.calculateSurgeMultiplier`: `1.0 + demandFactor * 0.5`,
    capped at `config.ridePooling.surgeMultiplierMax`. -/
def calculateSurgeMultiplier (demandFactor : ℚ) : ℚ :=
  mathMin (1 + demandFactor * (1/2)) Config.surgeMultiplierMax

/-- Source `PricingService.calculatePoolDiscount`: base discount percent plus
    `(poolSize - 1) * 5`, capped at 30. -/
def calculatePoolDiscount (poolSize : ℤ) : ℚ :=
  mathMin (Config.poolDiscountPercent + ((poolSize : ℚ) - 1) * 5) 30

/-- Computational core of `PricingService.calculatePrice`, with the
    Haversine distance of the request and the Redis-sampled demand factor
    supplied as inputs.  Mirrors the source line by line: only
    `final_price` and `distance_km` pass through `toFixed(2)`. -/
def calculatePriceFromDistance (distance demandFactor : ℚ) (isPooled : Bool)
    (poolSize : ℤ) : PriceBreakdown :=
  let baseFare := Config.baseFare
  let distanceFare := distance * Config.perKmRate
  let subtotal := baseFare + distanceFare
  let surgeMultiplier := calculateSurgeMultiplier demandFactor
  let surgeAmount := subtotal * (surgeMultiplier - 1)
  let poolDiscount :=
    if isPooled then
      (subtotal + surgeAmount) * (calculatePoolDiscount poolSize / 100)
    else 0
  let finalPrice := mathMax 0 (subtotal + surgeAmount - poolDiscount)
  { base_fare := baseFare
    distance_fare := distanceFare
    subtotal := subtotal
    surge_multiplier := surgeMultiplier
    surge_amount := surgeAmount
    pool_discount := poolDiscount
    final_price := round2 finalPrice
    demand_factor := demandFactor
    distance_km := round2 distance }

/-- Source `PricingService.calculatePrice` on a ride request: the distance is the
    oracle distance between the request's pickup and dropoff. -/
def calculatePrice (calculateDistance : ℚ → ℚ → ℚ → ℚ → ℚ)
    (demandFactor : ℚ) (request : RideRequest) (isPooled : Bool)
    (poolSize : ℤ) : PriceBreakdown :=
  calculatePriceFromDistance
    (calculateDistance request.pickup_latitude request.pickup_longitude
      request.dropoff_latitude request.dropoff_longitude)
    demandFactor isPooled poolSize

/-! ## GeoMath and RouteSequencer (`src/utils/distance.ts`)

The distance oracle stands for the floating-point Haversine formula; every
definition below is parametric in it. -/

section DistanceUtils

variable (calculateDistance : ℚ → ℚ → ℚ → ℚ → ℚ)

/-- Source `calculateTotalDistance`: sum of consecutive leg distances along a route. -/
def calculateTotalDistance : List Stop → ℚ
  | a :: b :: rest => calculateDistance a.lat a.lon b.lat b.lon
      + calculateTotalDistance (b :: rest)
  | _ => 0

/-- Source `areLocationsCompatible`: pickups within `maxDetourKm`, dropoffs within
    `2 × maxDetourKm`. -/
def areLocationsCompatible (r1pLat r1pLon r1dLat r1dLon r2pLat r2pLon
    r2dLat r2dLon maxDetourKm : ℚ) : Bool :=
  let pickupDistance := calculateDistance r1pLat r1pLon r2pLat r2pLon
  let dropoffDistance := calculateDistance r1dLat r1dLon r2dLat r2dLon
  decide (pickupDistance ≤ maxDetourKm) &&
    decide (dropoffDistance ≤ maxDetourKm * 2)

/-- Intermediate state of the nearest-neighbour loop in `optimizeRoute`:
    the route built so far, the set of visited stop indices (in visiting
    order), and the users whose pickup has been visited. -/
structure RouteBuildState where
  optimized : List Stop
  visited : List ℕ
  pickedUp : List String
deriving DecidableEq

/-- One iteration of the inner scan of `optimizeRoute`'s while-loop over
    candidate index `i`: skip visited indices and dropoffs of users not yet
    picked up, otherwise keep the strictly nearer of `best` and `i`
    (`distance < minDistance` with `minDistance` starting at `Infinity`, so
    the first eligible index seeds the minimum and ties keep the earliest
    index). -/
def selectStep (stops : List Stop) (visited : List ℕ)
    (pickedUp : List String) (current : Stop) (best : Option (ℕ × ℚ))
    (i : ℕ) : Option (ℕ × ℚ) :=
  if visited.contains i then best
  else
    let st := stops.getD i default
    if st.type == .dropoff && !pickedUp.contains st.userId then best
    else
      let dist := calculateDistance current.lat current.lon st.lat st.lon
      match best with
      | none => some (i, dist)
      | some (j, dj) => if dist < dj then some (i, dist) else some (j, dj)

/-- Inner scan of `optimizeRoute`'s while-loop: fold `selectStep` over all
    stop indices. -/
def selectNearest (stops : List Stop) (visited : List ℕ)
    (pickedUp : List String) (current : Stop) : Option ℕ :=
  ((List.range stops.length).foldl
    (selectStep calculateDistance stops visited pickedUp current)
    none).map Prod.fst

/-- Fallback of `optimizeRoute` when no eligible stop remains: the first
    unvisited index, ignoring the pickup-before-dropoff constraint. -/
def firstUnvisited (stops : List Stop) (visited : List ℕ) : Option ℕ :=
  (List.range stops.length).find? (fun i => !visited.contains i)

/-- Appending stop index `i` to the route state, as done at the bottom of
    `optimizeRoute`'s while-loop body. -/
def pushStop (stops : List Stop) (σ : RouteBuildState) (i : ℕ) :
    RouteBuildState :=
  let st := stops.getD i default
  { optimized := σ.optimized ++ [st]
    visited := σ.visited ++ [i]
    pickedUp := if st.type == .pickup then σ.pickedUp ++ [st.userId]
                else σ.pickedUp }

/-- The while-loop of `optimizeRoute`, fuelled: each iteration appends the
    nearest eligible stop, or — if none is eligible — the first unvisited
    stop (the constraint-deadlock fallback).  The loop of the source runs
    while `optimized.length < stops.length`; `stops.length - 1` iterations
    suffice since the state starts with one stop and each iteration adds
    one. -/
def optimizeRouteGo (stops : List Stop) :
    ℕ → RouteBuildState → RouteBuildState
  | 0, σ => σ
  | fuel + 1, σ =>
    if σ.optimized.length < stops.length then
      let current := σ.optimized.getLast?.getD default
      match selectNearest calculateDistance stops σ.visited σ.pickedUp
          current with
      | some i => optimizeRouteGo stops fuel (pushStop stops σ i)
      | none =>
        match firstUnvisited stops σ.visited with
        | some i => optimizeRouteGo stops fuel (pushStop stops σ i)
        | none => σ
    else σ

/-- Initial state of `optimizeRoute`: route seeded with `stops[0]`, index 0
    visited, and its user picked up when it is a pickup. -/
def initialRouteState (stops : List Stop) : RouteBuildState :=
  let st0 := stops.getD 0 default
  { optimized := [st0]
    visited := [0]
    pickedUp := if st0.type == .pickup then [st0.userId] else [] }

/-- Source `optimizeRoute`: greedy constrained nearest-neighbour sequencing of
    pickup/dropoff stops. -/
def optimizeRoute (stops : List Stop) : List Stop :=
  if stops.length ≤ 1 then stops
  else
    (optimizeRouteGo calculateDistance stops (stops.length - 1)
      (initialRouteState stops)).optimized

/-- Variant of the while-loop that fails (returns `none`) instead of taking
    the constraint-deadlock fallback branch; used to state that the
    fallback is unreachable. -/
def optimizeRouteGoStrict (stops : List Stop) :
    ℕ → RouteBuildState → Option RouteBuildState
  | 0, σ => some σ
  | fuel + 1, σ =>
    if σ.optimized.length < stops.length then
      let current := σ.optimized.getLast?.getD default
      match selectNearest calculateDistance stops σ.visited σ.pickedUp
          current with
      | some i => optimizeRouteGoStrict stops fuel (pushStop stops σ i)
      | none => none
    else some σ

/-- Fallback-free counterpart of `optimizeRoute`. -/
def optimizeRouteStrict (stops : List Stop) : Option (List Stop) :=
  if stops.length ≤ 1 then some stops
  else
    (optimizeRouteGoStrict calculateDistance stops (stops.length - 1)
      (initialRouteState stops)).map RouteBuildState.optimized

end DistanceUtils

/-- Checks that along a route every dropoff is preceded by a pickup of the
    same user: `seen` accumulates the users picked up so far. -/
def routeRespectsPickups (seen : List String) : List Stop → Bool
  | [] => true
  | st :: rest =>
    (if st.type == .dropoff then seen.contains st.userId else true) &&
      routeRespectsPickups
        (if st.type == .pickup then st.userId :: seen else seen) rest

/-- The `seen` accumulator of `routeRespectsPickups` after traversing a
    route prefix. -/
def seenAfter (seen : List String) : List Stop → List String
  | [] => seen
  | st :: rest =>
    seenAfter (if st.type == .pickup then st.userId :: seen else seen) rest

/-- Eligibility of stop index `i` in the inner scan of `optimizeRoute`:
    unvisited, and not a dropoff of a user who has not been picked up. -/
def eligibleB (stops : List Stop) (visited : List ℕ)
    (pickedUp : List String) (i : ℕ) : Bool :=
  !visited.contains i &&
    !((stops.getD i default).type == .dropoff &&
      !pickedUp.contains (stops.getD i default).userId)

/-- Loop invariant of `optimizeRoute`'s while-loop: the visited index list
    is duplicate-free and in range, the built route is exactly the visited
    indices mapped through the stop list, `pickedUp` holds exactly the
    users with a pickup on the built route, and the built route never
    drops a user off before picking them up. -/
structure RouteInv (stops : List Stop) (σ : RouteBuildState) : Prop where
  nodup : σ.visited.Nodup
  bounded : ∀ i ∈ σ.visited, i < stops.length
  opt_eq : σ.optimized = σ.visited.map (fun i => stops.getD i default)
  picked_iff : ∀ u, u ∈ σ.pickedUp ↔
    ∃ st ∈ σ.optimized, st.type = .pickup ∧ st.userId = u
  respects : routeRespectsPickups [] σ.optimized = true


/-! ## MatchingEngine (`src/services/matchingEngine.ts`) -/

/-- Pickup stop built for a request in `analyzeRouteWithNewMember`: note the
    stop id is the request id with the `"-pickup"` suffix. -/
def pickupStopOf (req : RideRequest) : Stop :=
  { id := req.id ++ "-pickup"
    lat := req.pickup_latitude
    lon := req.pickup_longitude
    type := .pickup
    userId := req.user_id
    requestId := req.id }

/-- Dropoff stop built for a request in `analyzeRouteWithNewMember`. -/
def dropoffStopOf (req : RideRequest) : Stop :=
  { id := req.id ++ "-dropoff"
    lat := req.dropoff_latitude
    lon := req.dropoff_longitude
    type := .dropoff
    userId := req.user_id
    requestId := req.id }

/-- Source `MatchingEngine.checkCapacityConstraints`. -/
def checkCapacityConstraints (pool : RidePool) (request : RideRequest) :
    Bool :=
  decide (pool.current_passenger_count + request.passenger_count ≤
      pool.max_passengers) &&
    decide (pool.current_luggage_count + request.luggage_count ≤
      pool.max_luggage)

/-- Source `MatchingEngine.checkLocationCompatibility`: vacuous for an empty pool,
    otherwise at least one existing request must be location-compatible
    under the global `maxDetourToleranceKm` (the trailing
    `existingRequests.length === 0` of the source is the final `else`). -/
def checkLocationCompatibility (calculateDistance : ℚ → ℚ → ℚ → ℚ → ℚ)
    (newRequest : RideRequest) (existingRequests : List RideRequest) :
    Bool :=
  if existingRequests.isEmpty then true
  else if existingRequests.any (fun existingReq =>
      areLocationsCompatible calculateDistance
        newRequest.pickup_latitude newRequest.pickup_longitude
        newRequest.dropoff_latitude newRequest.dropoff_longitude
        existingReq.pickup_latitude existingReq.pickup_longitude
        existingReq.dropoff_latitude existingReq.dropoff_longitude
        Config.maxDetourToleranceKm) then true
  else existingRequests.isEmpty

/-- Result record of `analyzeRouteWithNewMember`. -/
structure RouteAnalysis where
  valid : Bool
  route : List Stop
  detours : List (String × ℚ)
  totalDistance : ℚ
deriving DecidableEq

/-- The last index of the route satisfying a predicate, or `none`; mirrors
    the ascending for-loop of `analyzeRouteWithNewMember` that overwrites
    `pickupIdx`/`dropoffIdx` on every match and leaves `-1` when none. -/
def lastIdxWhere (p : Stop → Bool) (route : List Stop) : Option ℕ :=
  (List.range route.length).foldl
    (fun acc i => if p (route.getD i default) then some i else acc) none

/-- Per-request body of the detour loop in `analyzeRouteWithNewMember`:
    locate the request's pickup and dropoff in the optimized route by
    comparing the stop `id` with the request id (the source's comparison —
    stop ids carry a `"-pickup"`/`"-dropoff"` suffix), sum the legs between
    them, and check the detour bound.  `none` aborts the whole analysis. -/
def analyzeStep (calculateDistance : ℚ → ℚ → ℚ → ℚ → ℚ)
    (optimizedRoute : List Stop) (req : RideRequest) :
    Option (String × ℚ) :=
  let directDistance := calculateDistance req.pickup_latitude
    req.pickup_longitude req.dropoff_latitude req.dropoff_longitude
  let pickupIdx := lastIdxWhere
    (fun st => st.id == req.id && st.type == .pickup) optimizedRoute
  let dropoffIdx := lastIdxWhere
    (fun st => st.id == req.id && st.type == .dropoff) optimizedRoute
  match pickupIdx, dropoffIdx with
  | some p, some q =>
    let actualDistance := calculateTotalDistance calculateDistance
      ((optimizedRoute.drop p).take (q - p + 1))
    let detour := actualDistance - directDistance
    let maxDetour := min req.max_detour_km Config.maxDetourToleranceKm
    if detour > maxDetour then none else some (req.id, detour)
  | _, _ => none

/-- Detour loop of `analyzeRouteWithNewMember` over all pool requests plus
    the new one; any failing request invalidates the analysis. -/
def analyzeLoop (calculateDistance : ℚ → ℚ → ℚ → ℚ → ℚ)
    (optimizedRoute : List Stop) :
    List RideRequest → Option (List (String × ℚ))
  | [] => some []
  | req :: rest =>
    match analyzeStep calculateDistance optimizedRoute req with
    | none => none
    | some kv =>
      (analyzeLoop calculateDistance optimizedRoute rest).map (kv :: ·)

/-- Source `MatchingEngine.analyzeRouteWithNewMember`: build the combined stop
    list, optimize it, and run the detour loop.  (`existingMembers` is a
    parameter of the source method that its body never reads.) -/
def analyzeRouteWithNewMember (calculateDistance : ℚ → ℚ → ℚ → ℚ → ℚ)
    (newRequest : RideRequest) (existingRequests : List RideRequest)
    (existingMembers : List PoolMember) : RouteAnalysis :=
  let _ := existingMembers
  let stops := existingRequests.flatMap
      (fun req => [pickupStopOf req, dropoffStopOf req]) ++
    [pickupStopOf newRequest, dropoffStopOf newRequest]
  let optimizedRoute := optimizeRoute calculateDistance stops
  let totalDistance := calculateTotalDistance calculateDistance
    optimizedRoute
  match analyzeLoop calculateDistance optimizedRoute
      (existingRequests ++ [newRequest]) with
  | some detours =>
    { valid := true
      route := optimizedRoute
      detours := detours
      totalDistance := totalDistance }
  | none => { valid := false, route := [], detours := [], totalDistance := 0 }

/-- Source `MatchingEngine.calculateMatchScore` (the `request` parameter is unused
    by the source body). -/
def calculateMatchScore (routeAnalysis : RouteAnalysis) (pool : RidePool)
    (request : RideRequest) : ℚ :=
  let _ := request
  let avgDetour := (routeAnalysis.detours.map Prod.snd).sum /
    (routeAnalysis.detours.length : ℚ)
  let utilizationScore := (pool.current_passenger_count : ℚ) /
    (pool.max_passengers : ℚ)
  let detourScore := mathMax 0 (10 - avgDetour)
  let distanceScore := mathMax 0 (50 - routeAnalysis.totalDistance)
  utilizationScore * 30 + detourScore * 40 + distanceScore * 30

/-- Source `MatchingEngine.findBestMatch`: filter candidates by capacity, coarse
    location compatibility and route validity, score the survivors, and
    return the highest-scoring candidate (earliest on ties, matching the
    stable descending sort of the source). -/
def findBestMatch (calculateDistance : ℚ → ℚ → ℚ → ℚ → ℚ)
    (request : RideRequest) (availablePools : List PoolCandidate) :
    Option PoolCandidate :=
  let compatiblePools : List (PoolCandidate × ℚ) :=
    availablePools.filterMap (fun poolCandidate =>
      if !checkCapacityConstraints poolCandidate.pool request then none
      else if !checkLocationCompatibility calculateDistance request
          poolCandidate.existingRequests then none
      else
        let routeAnalysis := analyzeRouteWithNewMember calculateDistance
          request poolCandidate.existingRequests
          poolCandidate.existingMembers
        if !routeAnalysis.valid then none
        else some (poolCandidate,
          calculateMatchScore routeAnalysis poolCandidate.pool request))
  match compatiblePools with
  | [] => none
  | first :: rest =>
    some ((rest.foldl (fun best x => if x.2 > best.2 then x else best)
      first).1)

/-- Inner absorption loop of `generateOptimalPools`: scan the sorted
    requests, skip already-assigned ones, stop once the group holds
    `maxPassengersPerPool` requests, and absorb a request when it is
    location-compatible with the group and the summed passenger/luggage
    counts stay within the caps. -/
def absorbGo (calculateDistance : ℚ → ℚ → ℚ → ℚ → ℚ) :
    List RideRequest → List RideRequest → List String →
    List RideRequest × List String
  | [], compatible, assigned => (compatible, assigned)
  | otherRequest :: rest, compatible, assigned =>
    if assigned.contains otherRequest.id then
      absorbGo calculateDistance rest compatible assigned
    else if Config.maxPassengersPerPool ≤ (compatible.length : ℤ) then
      (compatible, assigned)
    else if checkLocationCompatibility calculateDistance otherRequest
        compatible then
      let totalPassengers := (compatible.map RideRequest.passenger_count).sum
        + otherRequest.passenger_count
      let totalLuggage := (compatible.map RideRequest.luggage_count).sum
        + otherRequest.luggage_count
      if decide (totalPassengers ≤ Config.maxPassengersPerPool) &&
          decide (totalLuggage ≤ Config.maxLuggageCapacity) then
        absorbGo calculateDistance rest (compatible ++ [otherRequest])
          (assigned ++ [otherRequest.id])
      else absorbGo calculateDistance rest compatible assigned
    else absorbGo calculateDistance rest compatible assigned

/-- Outer loop of `generateOptimalPools`: each unassigned request seeds a
    group that absorbs compatible requests; the source only logs each
    group's size. -/
def buildGroupsGo (calculateDistance : ℚ → ℚ → ℚ → ℚ → ℚ)
    (sortedRequests : List RideRequest) :
    List RideRequest → List String → List (List RideRequest)
  | [], _ => []
  | request :: rest, assigned =>
    if assigned.contains request.id then
      buildGroupsGo calculateDistance sortedRequests rest assigned
    else
      let res := absorbGo calculateDistance sortedRequests [request]
        (assigned ++ [request.id])
      res.1 :: buildGroupsGo calculateDistance sortedRequests rest res.2

/-- Source `MatchingEngine.generateOptimalPools`: sorts the requests by submission
    time, runs the greedy grouping (whose groups the source merely logs),
    and returns the `pools` accumulator — to which the source never appends
    anything. -/
def generateOptimalPools (calculateDistance : ℚ → ℚ → ℚ → ℚ → ℚ)
    (requests : List RideRequest) : List MatchResult :=
  let pools : List MatchResult := []
  let sortedRequests := requests.mergeSort
    (fun a b => a.requested_at ≤ b.requested_at)
  let _groupSizes := (buildGroupsGo calculateDistance sortedRequests
    sortedRequests []).map List.length
  pools

/-! ## PoolService and RideService (`src/services/poolService.ts`,
`src/services/rideService.ts`)

The database is an explicit state; each public service method is a
transaction `DBState → Except String …` where `.error` models a thrown
error (the transaction rolls back, so no mutated state escapes). -/

/-- The relational state touched by the services. -/
structure DBState where
  requests : List RideRequest
  pools : List RidePool
  members : List PoolMember
  pricing_history : List (String × PriceBreakdown)
deriving DecidableEq

/-- Members of one pool (rows of `pool_members` with the given `pool_id`). -/
def poolMembers (s : DBState) (poolId : String) : List PoolMember :=
  s.members.filter (fun m => m.pool_id == poolId)

/-- Sum of `passenger_count` over the requests of a pool's current members
    (the aggregate computed by `recalculatePoolCapacityInternal`). -/
def memberPassengerSum (s : DBState) (poolId : String) : ℤ :=
  let rideIds := (poolMembers s poolId).map PoolMember.ride_request_id
  ((s.requests.filter (fun r => rideIds.contains r.id)).map
    RideRequest.passenger_count).sum

/-- Sum of `luggage_count` over the requests of a pool's current members. -/
def memberLuggageSum (s : DBState) (poolId : String) : ℤ :=
  let rideIds := (poolMembers s poolId).map PoolMember.ride_request_id
  ((s.requests.filter (fun r => rideIds.contains r.id)).map
    RideRequest.luggage_count).sum

/-- Overwrite a pool's capacity counters. -/
def setPoolCounts (s : DBState) (poolId : String) (passengers luggage : ℤ) :
    DBState :=
  { s with pools := s.pools.map (fun p =>
      if p.id == poolId then
        { p with current_passenger_count := passengers
                 current_luggage_count := luggage }
      else p) }

/-- Source `PoolService.recalculatePoolCapacityInternal`: set the counters to the
    sums over the pool's current membership (0 when the pool is empty). -/
def recalculatePoolCapacityInternal (s : DBState) (poolId : String) :
    DBState :=
  let rideIds := (poolMembers s poolId).map PoolMember.ride_request_id
  if rideIds.isEmpty then setPoolCounts s poolId 0 0
  else setPoolCounts s poolId (memberPassengerSum s poolId)
    (memberLuggageSum s poolId)

/-- Source `PoolService.addMemberToPoolInternal`: load the request, reject if it is
    already a member of some pool, derive the sequence indices from the
    pool's prior member count, price the ride, insert the membership row
    (with `detour_distance_km` fixed at 0), mark the request `matched`, and
    append a pricing-history row. -/
def addMemberToPoolInternal (calculateDistance : ℚ → ℚ → ℚ → ℚ → ℚ)
    (demandFactor : ℚ) (poolId rideRequestId : String) (s : DBState) :
    Except String DBState :=
  match s.requests.find? (fun r => r.id == rideRequestId) with
  | none => .error "Ride request not found"
  | some ride =>
    if (s.members.find? (fun m => m.ride_request_id == rideRequestId)).isSome
    then .error "Ride already in a pool"
    else
      let currentCount := (poolMembers s poolId).length
      let isPooled := decide (0 < currentCount)
      let poolSize := (currentCount : ℤ) + 1
      let priceBreakdown := calculatePrice calculateDistance demandFactor
        ride isPooled poolSize
      let newMember : PoolMember :=
        { pool_id := poolId
          ride_request_id := rideRequestId
          pickup_sequence := (currentCount : ℤ) + 1
          dropoff_sequence := ((currentCount : ℤ) + 1) * 2
          detour_distance_km := 0
          price := priceBreakdown.final_price }
      .ok { s with
        members := s.members ++ [newMember]
        requests := s.requests.map (fun r =>
          if r.id == rideRequestId then { r with status := .matched } else r)
        pricing_history :=
          s.pricing_history ++ [(rideRequestId, priceBreakdown)] }

/-- Source `PoolService.addMemberToPool`: the internal insertion followed by the
    capacity recomputation, in one transaction. -/
def addMemberToPool (calculateDistance : ℚ → ℚ → ℚ → ℚ → ℚ)
    (demandFactor : ℚ) (poolId rideRequestId : String) (s : DBState) :
    Except String DBState :=
  match addMemberToPoolInternal calculateDistance demandFactor poolId
      rideRequestId s with
  | .error e => .error e
  | .ok s1 => .ok (recalculatePoolCapacityInternal s1 poolId)

/-- Member-insertion fold of `PoolService.createPool`: add each requested
    ride in order, aborting the transaction on the first error. -/
def addMembersFold (calculateDistance : ℚ → ℚ → ℚ → ℚ → ℚ)
    (demandFactor : ℚ) (poolId : String) :
    List String → DBState → Except String DBState
  | [], s => .ok s
  | rid :: rest, s =>
    match addMemberToPoolInternal calculateDistance demandFactor poolId rid
        s with
    | .error e => .error e
    | .ok s1 => addMembersFold calculateDistance demandFactor poolId rest s1

/-- Source `PoolService.createPool`: insert a fresh `forming` pool with zero
    counters and the configured maxima, add the requested members, then
    recompute the counters.  The database-generated pool id and the random
    pool code are oracle inputs.  The returned `RidePool` is the row as
    inserted (the source returns the `INSERT … RETURNING *` row, not the
    recalculated one). -/
def createPool (calculateDistance : ℚ → ℚ → ℚ → ℚ → ℚ)
    (demandFactor : ℚ) (poolId poolCode : String)
    (rideRequestIds : List String) (s : DBState) :
    Except String (DBState × RidePool) :=
  let pool : RidePool :=
    { id := poolId
      pool_code := poolCode
      status := .forming
      current_passenger_count := 0
      current_luggage_count := 0
      max_passengers := Config.maxPassengersPerPool
      max_luggage := Config.maxLuggageCapacity }
  let s1 : DBState := { s with pools := s.pools ++ [pool] }
  match addMembersFold calculateDistance demandFactor poolId rideRequestIds
      s1 with
  | .error e => .error e
  | .ok s2 => .ok (recalculatePoolCapacityInternal s2 poolId, pool)

/-- Source `PoolService.removeMemberFromPool`: delete the membership row,
    recompute the counters, and cancel the pool when it is left empty. -/
def removeMemberFromPool (poolId rideRequestId : String) (s : DBState) :
    DBState :=
  let s1 : DBState := { s with members := s.members.filter (fun m =>
    !(m.pool_id == poolId && m.ride_request_id == rideRequestId)) }
  let s2 := recalculatePoolCapacityInternal s1 poolId
  if (poolMembers s2 poolId).length = 0 then
    { s2 with pools := s2.pools.map (fun p =>
        if p.id == poolId then { p with status := .cancelled } else p) }
  else s2

/-- Source `RideService.cancelRideRequest`: lock and load the request; throw when
    it is absent, already cancelled, or completed; mark it cancelled; and —
    when it was `matched` — delete its membership rows and then look its
    `pool_id` up in `pool_members` *after* the deletion (the source's query
    order), recalculating the pool's counters only if that lookup still
    finds a row. -/
def cancelRideRequest (id : String) (s : DBState) :
    Except String (DBState × RideRequest) :=
  match s.requests.find? (fun r => r.id == id) with
  | none => .error "Ride request not found"
  | some rideRequest =>
    if rideRequest.status = .cancelled then
      .error "Ride request already cancelled"
    else if rideRequest.status = .completed then
      .error "Cannot cancel completed ride"
    else
      let s1 : DBState := { s with requests := s.requests.map (fun r =>
        if r.id == id then { r with status := .cancelled } else r) }
      let updatedRequest : RideRequest :=
        { rideRequest with status := .cancelled }
      if rideRequest.status = .matched then
        let s2 : DBState := { s1 with members := s1.members.filter (fun m =>
          !(m.ride_request_id == id)) }
        match s2.members.find? (fun m => m.ride_request_id == id) with
        | some m =>
          .ok (recalculatePoolCapacityInternal s2 m.pool_id, updatedRequest)
        | none => .ok (s2, updatedRequest)
      else .ok (s1, updatedRequest)

/-- The derived-counter invariant of the data model, as a decidable check:
    every pool's capacity counters equal the sums of its current members'
    passenger and luggage counts. -/
def countersMatch (s : DBState) : Bool :=
  s.pools.all (fun p =>
    p.current_passenger_count == memberPassengerSum s p.id &&
      p.current_luggage_count == memberLuggageSum s p.id)

/-! ## Specification-side pricing formula

Defined from the spec's words (§4.3) for the refinement claim about
`calculatePrice`; to be compared with `calculatePriceFromDistance`. -/

/-- Spec formula: `subtotal = base_fare + distanceKm * per_km_rate`. -/
def spec_subtotal (distanceKm : ℚ) : ℚ :=
  Config.baseFare + distanceKm * Config.perKmRate

/-- Spec formula: `surge = min(1.0 + demandFactor * 0.5, surge_max)`. -/
def spec_surge (demandFactor : ℚ) : ℚ :=
  min (1 + demandFactor * (1/2)) Config.surgeMultiplierMax

/-- Spec formula: `surge_amount = subtotal * (surge - 1.0)`. -/
def spec_surge_amount (distanceKm demandFactor : ℚ) : ℚ :=
  spec_subtotal distanceKm * (spec_surge demandFactor - 1)

/-- Spec formula:
    `discount_pct = isPooled ? min(base_discount + (poolSize-1)*5, 30) : 0`. -/
def spec_discount_pct (isPooled : Bool) (poolSize : ℤ) : ℚ :=
  if isPooled then
    min (Config.poolDiscountPercent + ((poolSize : ℚ) - 1) * 5) 30
  else 0

/-- Spec formula:
    `pool_discount = (subtotal + surge_amount) * discount_pct / 100`. -/
def spec_pool_discount (distanceKm demandFactor : ℚ) (isPooled : Bool)
    (poolSize : ℤ) : ℚ :=
  (spec_subtotal distanceKm + spec_surge_amount distanceKm demandFactor) *
    spec_discount_pct isPooled poolSize / 100

/-- Spec formula:
    `final_price = max(0, subtotal + surge_amount - pool_discount)`. -/
def spec_final_price (distanceKm demandFactor : ℚ) (isPooled : Bool)
    (poolSize : ℤ) : ℚ :=
  max 0 (spec_subtotal distanceKm + spec_surge_amount distanceKm demandFactor
    - spec_pool_discount distanceKm demandFactor isPooled poolSize)

/-! ## Concrete fixtures

Closed scenarios used to evaluate the embedded code.  `flatDist` is a
concrete computable metric standing in for the Haversine oracle: on points
with equal longitudes (as chosen below) the Haversine distance is likewise
proportional to the latitude difference, so the geometry of the spec
scenarios is preserved while staying exactly computable. -/

/-- Concrete taxicab metric used to instantiate the distance oracle in
    closed evaluations. -/
def flatDist (la lo lb lob : ℚ) : ℚ :=
  (if la ≤ lb then lb - la else la - lb) +
    (if lo ≤ lob then lob - lo else lo - lob)

/-- The new ride request of the §8 matching scenario: direct trip of 10 km,
    `max_detour_km = 5`. -/
def reqNew : RideRequest :=
  ⟨"r-new", "u-new", 0, 0, 10, 0, 1, 0, 5, .pending, 0⟩

/-- The existing pool member's request: pickup 2 km from `reqNew`'s pickup,
    dropoff 3 km from `reqNew`'s dropoff, 3 passengers. -/
def reqA : RideRequest :=
  ⟨"r-a", "u-a", 2, 0, 13, 0, 3, 0, 5, .matched, 0⟩

/-- The scenario pool at 3 of 4 passengers. -/
def poolP : RidePool := ⟨"P", "POOLAAA", .forming, 3, 0, 4, 8⟩

/-- Membership row joining `reqA` to `poolP`. -/
def memberRowA : PoolMember := ⟨"P", "r-a", 1, 2, 0, 100⟩

/-- The candidate bundle for the §8 matching scenario. -/
def candP : PoolCandidate := ⟨poolP, [memberRowA], [reqA]⟩

/-- A pool at 4/4 passengers for the capacity-filter scenario. -/
def poolFull : RidePool := ⟨"F", "POOLFFF", .forming, 4, 4, 4, 8⟩

/-- Candidate bundle for the full pool, location-compatible with `reqNew`. -/
def candFull : PoolCandidate := ⟨poolFull, [memberRowA], [reqA]⟩

/-- Matched request A of the cancellation scenario (1 passenger). -/
def reqMA : RideRequest := ⟨"A", "uA", 0, 0, 1, 0, 1, 0, 5, .matched, 0⟩

/-- Matched request B of the cancellation scenario (1 passenger). -/
def reqMB : RideRequest := ⟨"B", "uB", 0, 0, 1, 0, 1, 0, 5, .matched, 0⟩

/-- Pool holding requests A and B, counters consistent (2 passengers). -/
def poolAB : RidePool := ⟨"P", "POOLBBB", .forming, 2, 0, 4, 8⟩

/-- Database state for the cancellation scenario: pool `P` with members A
    and B and counters equal to the membership sums. -/
def sCancel : DBState :=
  ⟨[reqMA, reqMB], [poolAB], [⟨"P", "A", 1, 2, 0, 100⟩,
    ⟨"P", "B", 2, 4, 0, 100⟩], []⟩

/-- An already-cancelled request. -/
def reqCancelled : RideRequest :=
  ⟨"C", "uC", 0, 0, 1, 0, 1, 0, 5, .cancelled, 0⟩

/-- A completed request. -/
def reqCompleted : RideRequest :=
  ⟨"D", "uD", 0, 0, 1, 0, 1, 0, 5, .completed, 0⟩

/-- Database state holding one cancelled and one completed request. -/
def sTerminal : DBState := ⟨[reqCancelled, reqCompleted], [], [], []⟩

/-- Batch-pooling scenario: the i-th of five pairwise-compatible pending
    requests (identical 10 km trips, one passenger each, submitted in
    order). -/
def batchReq (i : ℕ) : RideRequest :=
  ⟨"q" ++ toString i, "u" ++ toString i, 0, 0, 10, 0, 1, 0, 5, .pending,
    (i : ℤ)⟩

/-- The five pairwise-compatible pending requests, already in submission
    order. -/
def batchReqs : List RideRequest :=
  [batchReq 1, batchReq 2, batchReq 3, batchReq 4, batchReq 5]

/-- Request used for the location-filter counterexample: personal
    `max_detour_km = 20`. -/
def reqWide : RideRequest := ⟨"E", "uE", 0, 0, 0, 0, 1, 0, 20, .pending, 0⟩

/-- Existing member request whose pickup is 7 km away — inside the
    request's personal 20 km tolerance but outside the global 5 km one. -/
def reqSeven : RideRequest := ⟨"Fm", "uF", 7, 0, 0, 0, 1, 0, 20, .matched, 0⟩

/-- Pending request X (2 passengers, 1 bag) for the membership-row claims. -/
def reqX : RideRequest := ⟨"X", "uX", 0, 0, 1, 0, 2, 1, 5, .pending, 0⟩

/-- Pending request Y (1 passenger) for the membership-row claims. -/
def reqY : RideRequest := ⟨"Y", "uY", 0, 0, 1, 0, 1, 0, 5, .pending, 0⟩

/-- An empty forming pool `Q`. -/
def poolQ : RidePool := ⟨"Q", "POOLQQQ", .forming, 0, 0, 4, 8⟩

/-- Database state with requests X and Y and the empty pool `Q`. -/
def sMembership : DBState := ⟨[reqX, reqY], [poolQ], [], []⟩

/-- State after adding request X to pool `Q` (total function for stating
    closed facts; the `.error` arm is unreachable here). -/
def afterAddX : DBState :=
  match addMemberToPool flatDist 0 "Q" "X" sMembership with
  | .ok s => s
  | .error _ => sMembership

/-- State after creating pool `R` over requests X and Y. -/
def afterCreateR : DBState :=
  match createPool flatDist 0 "R" "CODER1" ["X", "Y"] sMembership with
  | .ok (s, _) => s
  | .error _ => sMembership

/-- The pool row as `createPool` inserts it for pool `R`. -/
def poolR : RidePool := ⟨"R", "CODER1", .forming, 0, 0, 4, 8⟩

/-- A concrete stop list with one pickup and one dropoff per rider, first
    stop a pickup (riders of the §8 matching scenario). -/
def c9Stops : List Stop :=
  [pickupStopOf reqNew, dropoffStopOf reqNew,
    pickupStopOf reqA, dropoffStopOf reqA]

/-! ## Claim theorems -/

/-- C1: in the §8 matching scenario — a pool at 3 of 4 passengers whose
    member's pickup is 2 km from the request's pickup and dropoff 3 km from
    its dropoff, with `max_detour_km = 5` and detour-respecting sequencing —
    the candidate passes the capacity and location filters, yet
    `findBestMatch` returns `none` (opening a new pool): the detour loop of
    `analyzeRouteWithNewMember` compares each stop's suffixed `id` against
    the bare request id, never locates the pickup/dropoff indices, and
    invalidates every candidate. -/
theorem C1_scenario_pool_not_selected :
    flatDist reqNew.pickup_latitude reqNew.pickup_longitude
      reqA.pickup_latitude reqA.pickup_longitude = 2 ∧
    flatDist reqNew.dropoff_latitude reqNew.dropoff_longitude
      reqA.dropoff_latitude reqA.dropoff_longitude = 3 ∧
    checkCapacityConstraints poolP reqNew = true ∧
    checkLocationCompatibility flatDist reqNew [reqA] = true ∧
    (analyzeRouteWithNewMember flatDist reqNew [reqA] [memberRowA]).valid
      = false ∧
    findBestMatch flatDist reqNew [candP] = none := by
  with_unfolding_all decide

/-- C2: the capacity-counter invariant holds before the cancellation, but
    cancelling matched request A leaves pool P's `current_passenger_count`
    at 2 while only request B (1 passenger) remains: `cancelRideRequest`
    queries `pool_members` for the request's `pool_id` *after* deleting its
    rows, so `recalculatePoolCapacity` is never reached. -/
theorem C2_cancel_leaves_stale_counters :
    countersMatch sCancel = true ∧
    (cancelRideRequest "A" sCancel).toOption.map
      (fun p => countersMatch p.1) = some false ∧
    (cancelRideRequest "A" sCancel).toOption.map
      (fun p => memberPassengerSum p.1 "P") = some 1 ∧
    (cancelRideRequest "A" sCancel).toOption.map
      (fun p => p.1.pools.map RidePool.current_passenger_count)
      = some [2] := by
  decide

/-- C3 counterexample: cancelling an already-cancelled request raises
    `"Ride request already cancelled"`, and cancelling a completed one
    raises `"Cannot cancel completed ride"` — not an idempotent
    `already-terminal` success. -/
theorem C3_counterexample_error_raised :
    cancelRideRequest "C" sTerminal
      = .error "Ride request already cancelled" ∧
    cancelRideRequest "D" sTerminal
      = .error "Cannot cancel completed ride" := by
  with_unfolding_all exact ⟨rfl, rfl⟩

/-- C3 (amended): `cancelRideRequest` on a request whose status is already
    `cancelled` or `completed` raises an error and performs no mutation
    (the transaction aborts, so the error result carries no state). -/
theorem C3_terminal_cancel_raises (s : DBState) (id : String)
    (r : RideRequest) (hfind : s.requests.find? (fun q => q.id == id) = some r)
    (hstat : r.status = .cancelled ∨ r.status = .completed) :
    ∃ msg, cancelRideRequest id s = .error msg := by
  rcases hstat with h | h
  · exact ⟨"Ride request already cancelled", by
      unfold cancelRideRequest; rw [hfind]; simp [h]⟩
  · exact ⟨"Cannot cancel completed ride", by
      unfold cancelRideRequest; rw [hfind]; simp [h]⟩

/-- C3 witness: the amended statement applied to the concrete terminal
    state. -/
theorem C3_terminal_cancel_raises_witness :
    ∃ msg, cancelRideRequest "C" sTerminal = .error msg :=
  C3_terminal_cancel_raises sTerminal "C" reqCancelled
    (by with_unfolding_all decide) (Or.inl rfl)

/-- C4 counterexample: with `base_fare = 50`, `per_km_rate = 15`,
    `distance = 10`, `demandFactor = 0`, the pooled price at
    `poolSize = 2` has discount percent 25 (not 20), pool discount 50
    (not 40) and final price 150 (not 160). -/
theorem C4_counterexample_pool_discount :
    calculatePoolDiscount 2 = 25 ∧
    (calculatePriceFromDistance 10 0 true 2).pool_discount = 50 ∧
    (calculatePriceFromDistance 10 0 true 2).final_price = 150 ∧
    ¬ ((calculatePriceFromDistance 10 0 true 2).pool_discount = 40 ∧
       (calculatePriceFromDistance 10 0 true 2).final_price = 160) := by
  with_unfolding_all decide

/-- C4 (amended): the §8 pricing scenario as the code computes it —
    surge 1.0, subtotal 200, solo final price 200.00; pooled with
    `poolSize = 2`: discount percent 25, pool discount 50.00, final price
    150.00. -/
theorem C4_pricing_scenario :
    calculateSurgeMultiplier 0 = 1 ∧
    (calculatePriceFromDistance 10 0 false 1).subtotal = 200 ∧
    (calculatePriceFromDistance 10 0 false 1).final_price = 200 ∧
    calculatePoolDiscount 2 = 25 ∧
    (calculatePriceFromDistance 10 0 true 2).pool_discount = 50 ∧
    (calculatePriceFromDistance 10 0 true 2).final_price = 150 := by
  with_unfolding_all decide

/-- C5: the greedy grouping inside `generateOptimalPools` does partition
    the five pairwise-compatible requests into groups of sizes 4 and 1,
    but the function returns its never-extended `pools` accumulator, i.e.
    the empty list, for every input. -/
theorem C5_generateOptimalPools_returns_nothing :
    (buildGroupsGo flatDist batchReqs batchReqs []).map List.length
      = [4, 1] ∧
    ∀ (d : ℚ → ℚ → ℚ → ℚ → ℚ) (requests : List RideRequest),
      generateOptimalPools d requests = [] := by
  refine ⟨by with_unfolding_all decide, fun d requests => rfl⟩

/-- C6: the capacity filter does reject the 4/4 pool before any route
    analysis (its candidate is dropped at `checkCapacityConstraints`
    despite passing the location filter), but `findBestMatch` also rejects
    the compatible under-capacity candidate: because of the stop-id
    comparison slip no candidate is ever returned, so the detour bound on
    accepted matches holds only vacuously. -/
theorem C6_capacity_filter_and_vacuous_matches :
    checkCapacityConstraints poolFull reqNew = false ∧
    checkLocationCompatibility flatDist reqNew candFull.existingRequests
      = true ∧
    findBestMatch flatDist reqNew [candFull, candP] = none := by
  with_unfolding_all decide

/-- C7 counterexample: the reported `distance_km` is rounded to 2 decimals
    (`parseFloat(distance.toFixed(2))`), so not every non-final-price
    quantity retains full precision. -/
theorem C7_counterexample_distance_rounded :
    (calculatePriceFromDistance (1/3) 0 false 1).distance_km = 33/100 ∧
    ¬ ((33 : ℚ)/100 = 1/3) := by
  with_unfolding_all decide

/-- C7 (amended): `calculatePrice` computes exactly the spec formula, with
    rounding to 2 decimals applied at the `final_price` boundary and to the
    reported `distance_km`; all other reported quantities retain full
    precision. -/
theorem C7_price_formula (d df : ℚ) (isPooled : Bool) (poolSize : ℤ) :
    (calculatePriceFromDistance d df isPooled poolSize).base_fare
      = Config.baseFare ∧
    (calculatePriceFromDistance d df isPooled poolSize).distance_fare
      = d * Config.perKmRate ∧
    (calculatePriceFromDistance d df isPooled poolSize).subtotal
      = spec_subtotal d ∧
    (calculatePriceFromDistance d df isPooled poolSize).surge_multiplier
      = spec_surge df ∧
    (calculatePriceFromDistance d df isPooled poolSize).surge_amount
      = spec_surge_amount d df ∧
    (calculatePriceFromDistance d df isPooled poolSize).pool_discount
      = spec_pool_discount d df isPooled poolSize ∧
    (calculatePriceFromDistance d df isPooled poolSize).final_price
      = round2 (spec_final_price d df isPooled poolSize) ∧
    (calculatePriceFromDistance d df isPooled poolSize).demand_factor
      = df ∧
    (calculatePriceFromDistance d df isPooled poolSize).distance_km
      = round2 d := by
  have hmin : ∀ a b : ℚ, mathMin a b = min a b := fun a b => (min_def a b).symm
  have hmax : ∀ a b : ℚ, mathMax a b = max a b := fun a b => (max_def a b).symm
  cases isPooled with
  | false =>
    refine ⟨rfl, rfl, rfl, ?_, ?_, ?_, ?_, rfl, rfl⟩
    · simp [calculatePriceFromDistance, calculateSurgeMultiplier, spec_surge,
        hmin]
    · simp [calculatePriceFromDistance, calculateSurgeMultiplier,
        spec_surge_amount, spec_surge, spec_subtotal, hmin]
    · simp [calculatePriceFromDistance, spec_pool_discount, spec_discount_pct]
    · simp only [calculatePriceFromDistance, calculateSurgeMultiplier,
        spec_final_price, spec_pool_discount, spec_discount_pct,
        spec_surge_amount, spec_surge, spec_subtotal, hmin, hmax,
        Bool.false_eq_true, if_false]
      congr 1
      ring_nf
  | true =>
    refine ⟨rfl, rfl, rfl, ?_, ?_, ?_, ?_, rfl, rfl⟩
    · simp [calculatePriceFromDistance, calculateSurgeMultiplier, spec_surge,
        hmin]
    · simp [calculatePriceFromDistance, calculateSurgeMultiplier,
        spec_surge_amount, spec_surge, spec_subtotal, hmin]
    · simp only [calculatePriceFromDistance, calculateSurgeMultiplier,
        calculatePoolDiscount, spec_pool_discount, spec_discount_pct,
        spec_surge_amount, spec_surge, spec_subtotal, hmin, if_true]
      ring
    · simp only [calculatePriceFromDistance, calculateSurgeMultiplier,
        calculatePoolDiscount, spec_final_price, spec_pool_discount,
        spec_discount_pct, spec_surge_amount, spec_surge, spec_subtotal,
        hmin, hmax, if_true]
      congr 1
      ring_nf

/-- C8 counterexample: a member pickup 7 km away is inside the request's
    personal `max_detour_km = 20` (and its dropoff inside `2 × 20`), yet
    the filter rejects the pool — it measures against the global
    `maxDetourToleranceKm = 5`, not the request's tolerance. -/
theorem C8_counterexample_personal_tolerance_ignored :
    checkLocationCompatibility flatDist reqWide [reqSeven] = false ∧
    flatDist reqWide.pickup_latitude reqWide.pickup_longitude
      reqSeven.pickup_latitude reqSeven.pickup_longitude
      ≤ reqWide.max_detour_km ∧
    flatDist reqWide.dropoff_latitude reqWide.dropoff_longitude
      reqSeven.dropoff_latitude reqSeven.dropoff_longitude
      ≤ 2 * reqWide.max_detour_km := by
  with_unfolding_all decide

/-- C8 (amended): the coarse location filter accepts exactly when the pool
    has no existing members or some member's pickup lies within the global
    `maxDetourToleranceKm` of the request's pickup and that same member's
    dropoff within twice that tolerance — the request's own `max_detour_km`
    plays no role here. -/
theorem C8_location_filter_characterisation
    (d : ℚ → ℚ → ℚ → ℚ → ℚ) (req : RideRequest)
    (existing : List RideRequest) :
    checkLocationCompatibility d req existing = true ↔
      (existing = [] ∨ ∃ ex ∈ existing,
        d req.pickup_latitude req.pickup_longitude
          ex.pickup_latitude ex.pickup_longitude
          ≤ Config.maxDetourToleranceKm ∧
        d req.dropoff_latitude req.dropoff_longitude
          ex.dropoff_latitude ex.dropoff_longitude
          ≤ Config.maxDetourToleranceKm * 2) := by
  cases existing with
  | nil => simp [checkLocationCompatibility]
  | cons a l =>
    simp [checkLocationCompatibility, areLocationsCompatible,
      List.any_eq_true, Bool.and_eq_true, decide_eq_true_eq]

/-- Recomputing a pool's counters touches only the pool rows, never the
    membership table. -/
theorem recalc_members_eq (s : DBState) (pid : String) :
    (recalculatePoolCapacityInternal s pid).members = s.members := by
  unfold recalculatePoolCapacityInternal setPoolCounts
  dsimp only
  split <;> rfl

/-- Successful `addMemberToPoolInternal` appends exactly one membership row,
    whose sequence indices derive from the pool's prior member count and
    whose stored detour is 0; the pool rows are untouched. -/
theorem addMemberToPoolInternal_shape (cd : ℚ → ℚ → ℚ → ℚ → ℚ) (df : ℚ)
    (pid rid : String) (s s2 : DBState)
    (h : addMemberToPoolInternal cd df pid rid s = .ok s2) :
    (∃ price, s2.members = s.members ++
      [⟨pid, rid, ((poolMembers s pid).length : ℤ) + 1,
        (((poolMembers s pid).length : ℤ) + 1) * 2, 0, price⟩]) ∧
    s2.pools = s.pools := by
  unfold addMemberToPoolInternal at h
  split at h
  · cases h
  · split at h
    · cases h
    · injection h with h2
      subst h2
      exact ⟨⟨_, rfl⟩, rfl⟩

/-- The member-insertion fold of `createPool` appends one row per request
    id, in order, with sequence indices continuing from the pool's prior
    member count. -/
theorem addMembersFold_rows (cd : ℚ → ℚ → ℚ → ℚ → ℚ) (df : ℚ)
    (pid : String) :
    ∀ (ids : List String) (s s2 : DBState),
      addMembersFold cd df pid ids s = .ok s2 →
      ∃ rows : List PoolMember, s2.members = s.members ++ rows ∧
        rows.length = ids.length ∧
        ∀ k (hk : k < ids.length) (hr : k < rows.length),
          (rows.get ⟨k, hr⟩).pool_id = pid ∧
          (rows.get ⟨k, hr⟩).ride_request_id = ids.get ⟨k, hk⟩ ∧
          (rows.get ⟨k, hr⟩).pickup_sequence
            = ((poolMembers s pid).length : ℤ) + k + 1 ∧
          (rows.get ⟨k, hr⟩).dropoff_sequence
            = (((poolMembers s pid).length : ℤ) + k + 1) * 2 ∧
          (rows.get ⟨k, hr⟩).detour_distance_km = 0
  | [], s, s2, h => by
    unfold addMembersFold at h
    injection h with h2
    subst h2
    exact ⟨[], by simp, rfl, fun k hk hr => absurd hk (Nat.not_lt_zero k)⟩
  | rid :: rest, s, s2, h => by
    unfold addMembersFold at h
    split at h
    · cases h
    · next s1 hint =>
      obtain ⟨⟨price, hmem⟩, _⟩ :=
        addMemberToPoolInternal_shape cd df pid rid s s1 hint
      obtain ⟨rows, hm, hlen, hfields⟩ :=
        addMembersFold_rows cd df pid rest s1 s2 h
      have hcount : (poolMembers s1 pid).length
          = (poolMembers s pid).length + 1 := by
        simp [poolMembers, hmem, List.filter_append]
      refine ⟨⟨pid, rid, ((poolMembers s pid).length : ℤ) + 1,
        (((poolMembers s pid).length : ℤ) + 1) * 2, 0, price⟩ :: rows,
        ?_, ?_, ?_⟩
      · rw [hm, hmem]
        simp
      · simp [hlen]
      · intro k hk hr
        cases k with
        | zero => exact ⟨rfl, rfl, by simp, by simp, rfl⟩
        | succ k =>
          have hk2 : k < rest.length := Nat.lt_of_succ_lt_succ hk
          have hr2 : k < rows.length := Nat.lt_of_succ_lt_succ hr
          obtain ⟨hp, hrid, hps, hds, hdet⟩ := hfields k hk2 hr2
          refine ⟨hp, hrid, ?_, ?_, hdet⟩
          · show (rows.get ⟨k, hr2⟩).pickup_sequence = _
            rw [hps, hcount]
            push_cast
            ring
          · show (rows.get ⟨k, hr2⟩).dropoff_sequence = _
            rw [hds, hcount]
            push_cast
            ring

/-- C10: every membership row persisted when a request joins a pool stores
    `detour_distance_km = 0`, `pickup_sequence = n + 1` and
    `dropoff_sequence = 2 * (n + 1)`, where `n` is the pool's prior member
    count — via `addMemberToPool` (first conjunct) and via `createPool`
    over a fresh pool, where the k-th request gets `n = k` (second
    conjunct) — independent of the optimized route and the rider's actual
    detour. -/
theorem C10_member_row_fields :
    (∀ (cd : ℚ → ℚ → ℚ → ℚ → ℚ) (df : ℚ) (pid rid : String)
      (s s2 : DBState),
      addMemberToPool cd df pid rid s = .ok s2 →
      ∃ price, s2.members = s.members ++
        [⟨pid, rid, ((poolMembers s pid).length : ℤ) + 1,
          2 * (((poolMembers s pid).length : ℤ) + 1), 0, price⟩]) ∧
    (∀ (cd : ℚ → ℚ → ℚ → ℚ → ℚ) (df : ℚ) (pid code : String)
      (ids : List String) (s s2 : DBState) (pool : RidePool),
      poolMembers s pid = [] →
      createPool cd df pid code ids s = .ok (s2, pool) →
      ∃ rows : List PoolMember, s2.members = s.members ++ rows ∧
        rows.length = ids.length ∧
        ∀ k (hk : k < ids.length), ∃ hr : k < rows.length,
          (rows.get ⟨k, hr⟩).pool_id = pid ∧
          (rows.get ⟨k, hr⟩).ride_request_id = ids.get ⟨k, hk⟩ ∧
          (rows.get ⟨k, hr⟩).pickup_sequence = (k : ℤ) + 1 ∧
          (rows.get ⟨k, hr⟩).dropoff_sequence = 2 * ((k : ℤ) + 1) ∧
          (rows.get ⟨k, hr⟩).detour_distance_km = 0) := by
  constructor
  · intro cd df pid rid s s2 h
    unfold addMemberToPool at h
    split at h
    · cases h
    · next s1 hint =>
      injection h with h2
      obtain ⟨⟨price, hmem⟩, _⟩ :=
        addMemberToPoolInternal_shape cd df pid rid s s1 hint
      refine ⟨price, ?_⟩
      rw [← h2, recalc_members_eq, hmem]
      simp [mul_comm]
  · intro cd df pid code ids s s2 pool hempty h
    unfold createPool at h
    dsimp only at h
    split at h
    · cases h
    · next s2mid hfold =>
      injection h with h2
      have hs2 : recalculatePoolCapacityInternal s2mid pid = s2 :=
        congrArg Prod.fst h2
      obtain ⟨rows, hm, hlen, hfields⟩ :=
        addMembersFold_rows cd df pid ids _ s2mid hfold
      have hempty2 : (poolMembers
          { s with pools := s.pools ++ [⟨pid, code, .forming, 0, 0,
            Config.maxPassengersPerPool, Config.maxLuggageCapacity⟩] }
          pid) = [] := hempty
      refine ⟨rows, ?_, hlen, ?_⟩
      · rw [← hs2, recalc_members_eq]
        rw [hm]
      · intro k hk
        have hr : k < rows.length := hlen ▸ hk
        obtain ⟨hp, hrid, hps, hds, hdet⟩ := hfields k hk hr
        refine ⟨hr, hp, hrid, ?_, ?_, hdet⟩
        · rw [hps, hempty2]
          simp only [List.length_nil, Nat.cast_zero]
          ring
        · rw [hds, hempty2]
          simp only [List.length_nil, Nat.cast_zero]
          ring

/-- C10 witness: the membership-row facts instantiated at the concrete
    state with requests X and Y, pools Q and R. -/
theorem C10_member_row_fields_witness :
    (∃ price, afterAddX.members = sMembership.members ++
      [⟨"Q", "X", ((poolMembers sMembership "Q").length : ℤ) + 1,
        2 * (((poolMembers sMembership "Q").length : ℤ) + 1), 0, price⟩]) ∧
    (∃ rows : List PoolMember,
      afterCreateR.members = sMembership.members ++ rows ∧
      rows.length = (["X", "Y"] : List String).length ∧
      ∀ k (hk : k < (["X", "Y"] : List String).length),
        ∃ hr : k < rows.length,
          (rows.get ⟨k, hr⟩).pool_id = "R" ∧
          (rows.get ⟨k, hr⟩).ride_request_id
            = (["X", "Y"] : List String).get ⟨k, hk⟩ ∧
          (rows.get ⟨k, hr⟩).pickup_sequence = (k : ℤ) + 1 ∧
          (rows.get ⟨k, hr⟩).dropoff_sequence = 2 * ((k : ℤ) + 1) ∧
          (rows.get ⟨k, hr⟩).detour_distance_km = 0) :=
  ⟨C10_member_row_fields.1 flatDist 0 "Q" "X" sMembership afterAddX
      (by with_unfolding_all rfl),
   C10_member_row_fields.2 flatDist 0 "R" "CODER1" ["X", "Y"] sMembership
      afterCreateR poolR rfl (by with_unfolding_all rfl)⟩

/-- Bool membership test vs propositional membership. -/
theorem contains_true_iff {α : Type} [BEq α] [LawfulBEq α] (l : List α)
    (a : α) : l.contains a = true ↔ a ∈ l := by
  induction l with
  | nil => simp
  | cons b l ih => simp [List.contains_cons, ih]

/-- Membership in the accumulated `seen` list after a route prefix. -/
theorem seenAfter_mem (u : String) :
    ∀ (r : List Stop) (seen : List String),
      u ∈ seenAfter seen r ↔
        u ∈ seen ∨ ∃ st ∈ r, st.type = .pickup ∧ st.userId = u
  | [], seen => by simp [seenAfter]
  | st :: rest, seen => by
    unfold seenAfter
    rw [seenAfter_mem u rest]
    cases hty : st.type with
    | pickup =>
      simp only [hty, beq_self_eq_true, if_true, List.mem_cons,
        List.mem_cons]
      constructor
      · rintro (⟨h | h⟩ | ⟨st2, h2, h3, h4⟩)
        · exact Or.inr ⟨st, Or.inl rfl, hty, h.symm⟩
        · exact Or.inl h
        · exact Or.inr ⟨st2, Or.inr h2, h3, h4⟩
      · rintro (h | ⟨st2, h2 | h2, h3, h4⟩)
        · exact Or.inl (Or.inr h)
        · subst h2; exact Or.inl (Or.inl h4.symm)
        · exact Or.inr ⟨st2, h2, h3, h4⟩
    | dropoff =>
      simp only [hty, if_neg, List.mem_cons]
      rw [if_neg (by simp)]
      constructor
      · rintro (h | ⟨st2, h2, h3, h4⟩)
        · exact Or.inl h
        · exact Or.inr ⟨st2, Or.inr h2, h3, h4⟩
      · rintro (h | ⟨st2, h2 | h2, h3, h4⟩)
        · exact Or.inl h
        · subst h2; rw [hty] at h3; cases h3
        · exact Or.inr ⟨st2, h2, h3, h4⟩

/-- Splitting `routeRespectsPickups` over a concatenation. -/
theorem routeRespects_append :
    ∀ (r1 : List Stop) (seen : List String) (r2 : List Stop),
      routeRespectsPickups seen (r1 ++ r2)
        = (routeRespectsPickups seen r1 &&
           routeRespectsPickups (seenAfter seen r1) r2)
  | [], seen, r2 => by simp [routeRespectsPickups, seenAfter]
  | st :: rest, seen, r2 => by
    simp only [List.cons_append, routeRespectsPickups, seenAfter,
      List.append_eq, routeRespects_append rest, Bool.and_assoc]

/-- Mapping `getD` over the index range recovers the list. -/
theorem map_getD_range :
    ∀ (l : List Stop),
      (List.range l.length).map (fun i => l.getD i default) = l
  | [] => rfl
  | a :: l => by
    rw [List.length_cons, List.range_succ_eq_map, List.map_cons,
      List.map_map]
    have h2 : ((fun i => (a :: l).getD i default) ∘ (· + 1))
        = fun i => l.getD i default := funext fun i => rfl
    rw [h2, map_getD_range l]
    rfl

/-- A duplicate-free in-range index list shorter than the range leaves some
    index unvisited. -/
theorem exists_unvisited (visited : List ℕ) (n : ℕ)
    (hlen : visited.length < n) :
    ∃ j, j < n ∧ visited.contains j = false := by
  by_contra hcon
  push_neg at hcon
  have hsub : List.range n ⊆ visited := by
    intro j hj
    have h1 := hcon j (List.mem_range.mp hj)
    simp only [ne_eq, Bool.not_eq_false] at h1
    exact (contains_true_iff visited j).mp h1
  have h2 := (List.subperm_of_subset (List.nodup_range n) hsub).length_le
  rw [List.length_range] at h2
  omega

/-- A `some` accumulator stays `some` through one scan step. -/
theorem selectStep_isSome_of_isSome (cd : ℚ → ℚ → ℚ → ℚ → ℚ)
    (stops : List Stop) (visited : List ℕ) (pickedUp : List String)
    (current : Stop) (best : Option (ℕ × ℚ)) (i : ℕ)
    (h : best.isSome = true) :
    (selectStep cd stops visited pickedUp current best i).isSome = true := by
  cases best with
  | none => exact Bool.noConfusion h
  | some p =>
    obtain ⟨j, dj⟩ := p
    unfold selectStep
    dsimp only
    split
    · rfl
    · split
      · rfl
      · split <;> rfl

/-- Scanning over an eligible index yields a `some` accumulator. -/
theorem selectStep_isSome_of_eligible (cd : ℚ → ℚ → ℚ → ℚ → ℚ)
    (stops : List Stop) (visited : List ℕ) (pickedUp : List String)
    (current : Stop) (best : Option (ℕ × ℚ)) (i : ℕ)
    (h : eligibleB stops visited pickedUp i = true) :
    (selectStep cd stops visited pickedUp current best i).isSome = true := by
  unfold eligibleB at h
  rw [Bool.and_eq_true, Bool.not_eq_true', Bool.not_eq_true'] at h
  unfold selectStep
  rw [if_neg (by rw [h.1]; exact Bool.false_ne_true)]
  rw [if_neg (by rw [h.2]; exact Bool.false_ne_true)]
  cases best with
  | none => rfl
  | some p =>
    obtain ⟨j, dj⟩ := p
    dsimp only
    split <;> rfl

/-- One scan step preserves the soundness of the accumulator: any `some`
    result carries an in-range eligible index. -/
theorem selectStep_sound (cd : ℚ → ℚ → ℚ → ℚ → ℚ) (stops : List Stop)
    (visited : List ℕ) (pickedUp : List String) (current : Stop)
    (best : Option (ℕ × ℚ)) (i : ℕ) (hi : i < stops.length)
    (hbest : ∀ j d, best = some (j, d) →
      j < stops.length ∧ eligibleB stops visited pickedUp j = true) :
    ∀ j d, selectStep cd stops visited pickedUp current best i = some (j, d) →
      j < stops.length ∧ eligibleB stops visited pickedUp j = true := by
  intro j d h
  unfold selectStep at h
  dsimp only at h
  by_cases hc : visited.contains i = true
  · rw [if_pos hc] at h
    exact hbest j d h
  · rw [if_neg hc] at h
    by_cases hd : ((stops.getD i default).type == StopType.dropoff &&
        !pickedUp.contains (stops.getD i default).userId) = true
    · rw [if_pos hd] at h
      exact hbest j d h
    · rw [if_neg hd] at h
      rw [Bool.not_eq_true] at hc hd
      have helig : eligibleB stops visited pickedUp i = true := by
        unfold eligibleB
        rw [Bool.and_eq_true, Bool.not_eq_true', Bool.not_eq_true']
        exact ⟨hc, hd⟩
      cases best with
      | none =>
        dsimp only at h
        cases h
        exact ⟨hi, helig⟩
      | some p =>
        obtain ⟨j2, dj⟩ := p
        dsimp only at h
        split at h
        · cases h
          exact ⟨hi, helig⟩
        · cases h
          exact hbest _ _ rfl

/-- The scan fold produces `some` whenever the accumulator is already
    `some` or some index in the scanned list is eligible. -/
theorem selectFold_isSome (cd : ℚ → ℚ → ℚ → ℚ → ℚ) (stops : List Stop)
    (visited : List ℕ) (pickedUp : List String) (current : Stop) :
    ∀ (l : List ℕ) (init : Option (ℕ × ℚ)),
      (init.isSome = true ∨
        ∃ i ∈ l, eligibleB stops visited pickedUp i = true) →
      ((l.foldl (selectStep cd stops visited pickedUp current)
        init).isSome = true)
  | [], init, h => by
    rcases h with h | ⟨i, hi, _⟩
    · exact h
    · cases hi
  | a :: l, init, h => by
    rw [List.foldl_cons]
    apply selectFold_isSome cd stops visited pickedUp current l
    rcases h with h | ⟨i, hi, he⟩
    · exact Or.inl (selectStep_isSome_of_isSome cd stops visited pickedUp
        current init a h)
    · rcases List.mem_cons.mp hi with rfl | hi2
      · exact Or.inl (selectStep_isSome_of_eligible cd stops visited
          pickedUp current init i he)
      · exact Or.inr ⟨i, hi2, he⟩

/-- The scan fold only ever reports in-range eligible indices. -/
theorem selectFold_sound (cd : ℚ → ℚ → ℚ → ℚ → ℚ) (stops : List Stop)
    (visited : List ℕ) (pickedUp : List String) (current : Stop) :
    ∀ (l : List ℕ) (init : Option (ℕ × ℚ)),
      (∀ i ∈ l, i < stops.length) →
      (∀ j d, init = some (j, d) →
        j < stops.length ∧ eligibleB stops visited pickedUp j = true) →
      ∀ j d, l.foldl (selectStep cd stops visited pickedUp current) init
          = some (j, d) →
        j < stops.length ∧ eligibleB stops visited pickedUp j = true
  | [], init, _, hinit, j, d, h => hinit j d h
  | a :: l, init, hl, hinit, j, d, h => by
    rw [List.foldl_cons] at h
    exact selectFold_sound cd stops visited pickedUp current l _
      (fun i hi => hl i (List.mem_cons_of_mem a hi))
      (selectStep_sound cd stops visited pickedUp current init a
        (hl a (List.mem_cons_self a l)) hinit)
      j d h

/-- Lemma: `selectNearest` returns `some` whenever an in-range eligible index
    exists. -/
theorem selectNearest_isSome (cd : ℚ → ℚ → ℚ → ℚ → ℚ) (stops : List Stop)
    (visited : List ℕ) (pickedUp : List String) (current : Stop)
    (h : ∃ i, i < stops.length ∧
      eligibleB stops visited pickedUp i = true) :
    (selectNearest cd stops visited pickedUp current).isSome = true := by
  obtain ⟨i, hi, he⟩ := h
  unfold selectNearest
  have hmap : ∀ (o : Option (ℕ × ℚ)), (o.map Prod.fst).isSome = o.isSome :=
    fun o => by cases o <;> rfl
  rw [hmap]
  exact selectFold_isSome cd stops visited pickedUp current _ none
    (Or.inr ⟨i, List.mem_range.mpr hi, he⟩)

/-- Any index returned by `selectNearest` is in range and eligible. -/
theorem selectNearest_sound (cd : ℚ → ℚ → ℚ → ℚ → ℚ) (stops : List Stop)
    (visited : List ℕ) (pickedUp : List String) (current : Stop) (i : ℕ)
    (h : selectNearest cd stops visited pickedUp current = some i) :
    i < stops.length ∧ eligibleB stops visited pickedUp i = true := by
  unfold selectNearest at h
  rw [Option.map_eq_some'] at h
  obtain ⟨⟨j, d⟩, hfold, hj⟩ := h
  cases hj
  exact selectFold_sound cd stops visited pickedUp current _ none
    (fun k hk => List.mem_range.mp hk)
    (fun _ _ hc => by cases hc) j d hfold

/-- While the route is incomplete, some eligible index always exists:
    either an unvisited pickup remains, or all pickups are visited, in
    which case every user is picked up and any unvisited dropoff is
    eligible — given that every dropoff's user has a pickup stop. -/
theorem eligible_exists (stops : List Stop) (σ : RouteBuildState)
    (hInv : RouteInv stops σ) (hlen : σ.optimized.length < stops.length)
    (hpick : ∀ st ∈ stops, st.type = .dropoff →
      ∃ p ∈ stops, p.type = .pickup ∧ p.userId = st.userId) :
    ∃ i, i < stops.length ∧
      eligibleB stops σ.visited σ.pickedUp i = true := by
  have hvlen : σ.visited.length < stops.length := by
    have h1 := congrArg List.length hInv.opt_eq
    rw [List.length_map] at h1
    omega
  by_cases hup : ∃ j, j < stops.length ∧ σ.visited.contains j = false ∧
      (stops.getD j default).type = .pickup
  · obtain ⟨j, hj, hnc, hty⟩ := hup
    refine ⟨j, hj, ?_⟩
    unfold eligibleB
    rw [hnc, hty]
    rfl
  · push_neg at hup
    obtain ⟨j, hj, hnc⟩ := exists_unvisited σ.visited stops.length hvlen
    have hty : (stops.getD j default).type = .dropoff := by
      have h2 := hup j hj hnc
      cases h3 : (stops.getD j default).type
      · exact absurd h3 h2
      · rfl
    have hmem : stops.getD j default ∈ stops := by
      rw [List.getD_eq_getElem stops default hj]
      exact List.getElem_mem hj
    obtain ⟨p, hpmem, hpty, hpuid⟩ := hpick _ hmem hty
    obtain ⟨q, hq, hpq⟩ := List.mem_iff_getElem.mp hpmem
    by_cases hqv : σ.visited.contains q = false
    · exact absurd
        (by rw [List.getD_eq_getElem stops default hq, hpq]; exact hpty)
        (hup q hq hqv)
    · have hqv2 : σ.visited.contains q = true := by
        cases h4 : σ.visited.contains q with
        | true => rfl
        | false => exact absurd h4 hqv
      have hqmem : q ∈ σ.visited := (contains_true_iff _ _).mp hqv2
      have hopt : p ∈ σ.optimized := by
        rw [hInv.opt_eq]
        exact List.mem_map.mpr ⟨q, hqmem,
          by rw [List.getD_eq_getElem stops default hq, hpq]⟩
      have hpicked : (stops.getD j default).userId ∈ σ.pickedUp := by
        rw [← hpuid]
        exact ((hInv.picked_iff p.userId).mpr ⟨p, hopt, hpty, rfl⟩)
      refine ⟨j, hj, ?_⟩
      unfold eligibleB
      rw [hnc, hty]
      rw [(contains_true_iff σ.pickedUp _).mpr hpicked]
      rfl

/-- Pushing an unvisited in-range stop whose dropoff-user (if any) is
    already picked up preserves the loop invariant. -/
theorem pushStop_inv (stops : List Stop) (σ : RouteBuildState) (i : ℕ)
    (hInv : RouteInv stops σ) (hi : i < stops.length)
    (hni : σ.visited.contains i = false)
    (hdrop : (stops.getD i default).type = .dropoff →
      (stops.getD i default).userId ∈ σ.pickedUp) :
    RouteInv stops (pushStop stops σ i) := by
  have hnimem : i ∉ σ.visited := fun hmem =>
    by rw [(contains_true_iff σ.visited i).mpr hmem] at hni; cases hni
  constructor
  · show (σ.visited ++ [i]).Nodup
    rw [List.nodup_append]
    exact ⟨hInv.nodup, List.nodup_singleton i,
      by simp [List.disjoint_singleton]; exact hnimem⟩
  · intro j hj
    rcases List.mem_append.mp hj with hj2 | hj2
    · exact hInv.bounded j hj2
    · rw [List.mem_singleton.mp hj2]
      exact hi
  · show σ.optimized ++ [stops.getD i default]
      = (σ.visited ++ [i]).map (fun k => stops.getD k default)
    rw [List.map_append, hInv.opt_eq]
    rfl
  · intro u
    show u ∈ (if (stops.getD i default).type == .pickup
        then σ.pickedUp ++ [(stops.getD i default).userId]
        else σ.pickedUp) ↔ _
    cases hty : (stops.getD i default).type with
    | pickup =>
      rw [if_pos (by decide)]
      constructor
      · intro hu
        rcases List.mem_append.mp hu with hu2 | hu2
        · obtain ⟨st, hst, h1, h2⟩ := (hInv.picked_iff u).mp hu2
          exact ⟨st, List.mem_append.mpr (Or.inl hst), h1, h2⟩
        · exact ⟨stops.getD i default,
            List.mem_append.mpr (Or.inr (List.mem_singleton.mpr rfl)),
            hty, (List.mem_singleton.mp hu2).symm⟩
      · rintro ⟨st, hst, h1, h2⟩
        rcases List.mem_append.mp hst with hst2 | hst2
        · exact List.mem_append.mpr
            (Or.inl ((hInv.picked_iff u).mpr ⟨st, hst2, h1, h2⟩))
        · rw [List.mem_singleton.mp hst2] at h2
          exact List.mem_append.mpr
            (Or.inr (List.mem_singleton.mpr h2.symm))
    | dropoff =>
      rw [if_neg (by decide)]
      rw [hInv.picked_iff u]
      constructor
      · rintro ⟨st, hst, h1, h2⟩
        exact ⟨st, List.mem_append.mpr (Or.inl hst), h1, h2⟩
      · rintro ⟨st, hst, h1, h2⟩
        rcases List.mem_append.mp hst with hst2 | hst2
        · exact ⟨st, hst2, h1, h2⟩
        · rw [List.mem_singleton.mp hst2, hty] at h1
          cases h1
  · show routeRespectsPickups []
      (σ.optimized ++ [stops.getD i default]) = true
    rw [routeRespects_append, Bool.and_eq_true]
    refine ⟨hInv.respects, ?_⟩
    unfold routeRespectsPickups
    rw [Bool.and_eq_true]
    refine ⟨?_, rfl⟩
    cases hty : (stops.getD i default).type with
    | pickup => rw [if_neg (by decide)]
    | dropoff =>
      rw [if_pos (by decide)]
      have hpicked := hdrop hty
      rw [hInv.picked_iff] at hpicked
      obtain ⟨st, hst, h1, h2⟩ := hpicked
      apply (contains_true_iff _ _).mpr
      rw [seenAfter_mem]
      exact Or.inr ⟨st, hst, h1, h2⟩

/-- The invariant bounds the built route's length by the stop count. -/
theorem inv_len_le (stops : List Stop) (σ : RouteBuildState)
    (hInv : RouteInv stops σ) : σ.optimized.length ≤ stops.length := by
  have h1 := congrArg List.length hInv.opt_eq
  rw [List.length_map] at h1
  have h2 := (List.subperm_of_subset hInv.nodup
    (fun i hi => List.mem_range.mpr (hInv.bounded i hi))).length_le
  rw [List.length_range] at h2
  omega

/-- The invariant holds for `optimizeRoute`'s initial state when the first
    stop is a pickup. -/
theorem initial_inv (stops : List Stop) (h0 : 0 < stops.length)
    (hty : (stops.getD 0 default).type = .pickup) :
    RouteInv stops (initialRouteState stops) := by
  constructor
  · exact List.nodup_singleton 0
  · intro j hj
    rw [List.mem_singleton.mp hj]
    exact h0
  · rfl
  · intro u
    unfold initialRouteState
    dsimp only
    rw [hty, if_pos (by decide)]
    constructor
    · intro hu
      exact ⟨stops.getD 0 default, List.mem_singleton.mpr rfl, hty,
        (List.mem_singleton.mp hu).symm⟩
    · rintro ⟨st, hst, h1, h2⟩
      rw [List.mem_singleton.mp hst] at h2
      exact List.mem_singleton.mpr h2.symm
  · unfold initialRouteState routeRespectsPickups
    rw [hty, if_neg (by decide), if_pos (by decide)]
    rfl

/-- Main specification of `optimizeRoute`'s fuelled while-loop: under the
    invariant, and with a pickup stop available for every dropoff's user,
    the loop preserves the invariant, never takes the fallback branch
    (the strict variant computes the same states), and extends the route
    by one stop per iteration until all stops are placed. -/
theorem optimizeRouteGo_spec (cd : ℚ → ℚ → ℚ → ℚ → ℚ) (stops : List Stop)
    (hpick : ∀ st ∈ stops, st.type = .dropoff →
      ∃ p ∈ stops, p.type = .pickup ∧ p.userId = st.userId) :
    ∀ (fuel : ℕ) (σ : RouteBuildState), RouteInv stops σ →
      RouteInv stops (optimizeRouteGo cd stops fuel σ) ∧
      optimizeRouteGoStrict cd stops fuel σ
        = some (optimizeRouteGo cd stops fuel σ) ∧
      (optimizeRouteGo cd stops fuel σ).optimized.length
        = min stops.length (σ.optimized.length + fuel)
  | 0, σ, hInv => by
    have hle := inv_len_le stops σ hInv
    refine ⟨hInv, rfl, ?_⟩
    show σ.optimized.length = _
    omega
  | fuel + 1, σ, hInv => by
    by_cases hlen : σ.optimized.length < stops.length
    · obtain ⟨i0, hi0, he0⟩ := eligible_exists stops σ hInv hlen hpick
      have hsome := selectNearest_isSome cd stops σ.visited σ.pickedUp
        (σ.optimized.getLast?.getD default) ⟨i0, hi0, he0⟩
      obtain ⟨i, hsel⟩ := Option.isSome_iff_exists.mp hsome
      obtain ⟨hi, helig⟩ := selectNearest_sound cd stops σ.visited
        σ.pickedUp _ i hsel
      have helig2 := helig
      unfold eligibleB at helig2
      rw [Bool.and_eq_true, Bool.not_eq_true', Bool.not_eq_true'] at helig2
      obtain ⟨hnc, hnd⟩ := helig2
      have hdropOk : (stops.getD i default).type = .dropoff →
          (stops.getD i default).userId ∈ σ.pickedUp := by
        intro hty
        rw [hty] at hnd
        rw [show (StopType.dropoff == StopType.dropoff) = true from rfl,
          Bool.true_and, Bool.not_eq_false'] at hnd
        exact (contains_true_iff _ _).mp hnd
      have hInv2 := pushStop_inv stops σ i hInv hi hnc hdropOk
      have hgo : optimizeRouteGo cd stops (fuel + 1) σ
          = optimizeRouteGo cd stops fuel (pushStop stops σ i) := by
        conv_lhs => rw [optimizeRouteGo]
        rw [if_pos hlen]
        dsimp only
        rw [hsel]
      have hstrict : optimizeRouteGoStrict cd stops (fuel + 1) σ
          = optimizeRouteGoStrict cd stops fuel (pushStop stops σ i) := by
        conv_lhs => rw [optimizeRouteGoStrict]
        rw [if_pos hlen]
        dsimp only
        rw [hsel]
      obtain ⟨ha, hb, hc⟩ :=
        optimizeRouteGo_spec cd stops hpick fuel (pushStop stops σ i) hInv2
      have hplen : (pushStop stops σ i).optimized.length
          = σ.optimized.length + 1 := by
        show (σ.optimized ++ [stops.getD i default]).length = _
        rw [List.length_append]
        rfl
      refine ⟨?_, ?_, ?_⟩
      · rw [hgo]
        exact ha
      · rw [hstrict, hgo]
        exact hb
      · rw [hgo, hc, hplen]
        omega
    · have hgo : optimizeRouteGo cd stops (fuel + 1) σ = σ := by
        conv_lhs => rw [optimizeRouteGo]
        rw [if_neg hlen]
      have hstrict : optimizeRouteGoStrict cd stops (fuel + 1) σ
          = some σ := by
        conv_lhs => rw [optimizeRouteGoStrict]
        rw [if_neg hlen]
      have hle := inv_len_le stops σ hInv
      rw [hgo, hstrict]
      exact ⟨hInv, rfl, by omega⟩

/-- C9: on any stop list with exactly one pickup and one dropoff per rider
    whose first element is a pickup, `optimizeRoute` returns a permutation
    of the input in which every rider's pickup precedes their dropoff, and
    the constraint-deadlock fallback branch is unreachable (the
    fallback-free variant computes the same route). -/
theorem C9_optimizeRoute_safety (cd : ℚ → ℚ → ℚ → ℚ → ℚ)
    (stops : List Stop)
    (hone : ∀ u, u ∈ stops.map Stop.userId →
      (stops.filter
        (fun st => st.type == .pickup && st.userId == u)).length = 1 ∧
      (stops.filter
        (fun st => st.type == .dropoff && st.userId == u)).length = 1)
    (hfirst : stops.head?.map Stop.type = some .pickup) :
    (optimizeRoute cd stops).Perm stops ∧
    routeRespectsPickups [] (optimizeRoute cd stops) = true ∧
    optimizeRouteStrict cd stops = some (optimizeRoute cd stops) := by
  have hpick : ∀ st ∈ stops, st.type = .dropoff →
      ∃ p ∈ stops, p.type = .pickup ∧ p.userId = st.userId := by
    intro st hst _
    have hu : st.userId ∈ stops.map Stop.userId :=
      List.mem_map.mpr ⟨st, hst, rfl⟩
    have h1 := (hone st.userId hu).1
    cases hf : stops.filter
        (fun st2 => st2.type == .pickup && st2.userId == st.userId) with
    | nil => rw [hf] at h1; cases h1
    | cons p rest2 =>
      have hpmem : p ∈ stops.filter
          (fun st2 => st2.type == .pickup && st2.userId == st.userId) :=
        hf ▸ List.mem_cons_self p rest2
      obtain ⟨hp1, hp2⟩ := List.mem_filter.mp hpmem
      rw [Bool.and_eq_true, beq_iff_eq, beq_iff_eq] at hp2
      exact ⟨p, hp1, hp2.1, hp2.2⟩
  obtain ⟨s0, rest, hstops⟩ : ∃ a l, stops = a :: l := by
    cases stops with
    | nil => exact Option.noConfusion hfirst
    | cons a l => exact ⟨a, l, rfl⟩
  have h0 : 0 < stops.length := by rw [hstops]; exact Nat.succ_pos _
  have hty : (stops.getD 0 default).type = .pickup := by
    rw [hstops] at hfirst ⊢
    simpa using hfirst
  by_cases hsing : stops.length ≤ 1
  · have hopt : optimizeRoute cd stops = stops := by
      unfold optimizeRoute
      rw [if_pos hsing]
    have hstrict : optimizeRouteStrict cd stops = some stops := by
      unfold optimizeRouteStrict
      rw [if_pos hsing]
    have hrest : rest = [] := by
      rw [hstops] at hsing
      simp only [List.length_cons] at hsing
      exact List.length_eq_zero.mp (by omega)
    refine ⟨by rw [hopt], ?_, by rw [hstrict, hopt]⟩
    rw [hopt, hstops, hrest]
    unfold routeRespectsPickups
    rw [hstops, hrest] at hty
    rw [if_neg (by rw [show ((([s0] : List Stop).getD 0 default)) = s0
        from rfl] at hty; rw [hty]; decide)]
    rfl
  · have hInv0 := initial_inv stops h0 hty
    obtain ⟨hIf, hstr, hlenf⟩ := optimizeRouteGo_spec cd stops hpick
      (stops.length - 1) (initialRouteState stops) hInv0
    have hinitlen : (initialRouteState stops).optimized.length = 1 := rfl
    have hfinlen : (optimizeRouteGo cd stops (stops.length - 1)
        (initialRouteState stops)).optimized.length = stops.length := by
      rw [hlenf, hinitlen]
      omega
    have hopt : optimizeRoute cd stops = (optimizeRouteGo cd stops
        (stops.length - 1) (initialRouteState stops)).optimized := by
      unfold optimizeRoute
      rw [if_neg hsing]
    have hstrict2 : optimizeRouteStrict cd stops
        = some (optimizeRoute cd stops) := by
      unfold optimizeRouteStrict
      rw [if_neg hsing, hstr, hopt]
      rfl
    have hperm : (optimizeRoute cd stops).Perm stops := by
      rw [hopt, hIf.opt_eq]
      have hvlen : (optimizeRouteGo cd stops (stops.length - 1)
          (initialRouteState stops)).visited.length = stops.length := by
        have h2 := congrArg List.length hIf.opt_eq
        rw [List.length_map] at h2
        rw [← h2, hfinlen]
      have hsub := List.subperm_of_subset hIf.nodup
        (fun i hi => List.mem_range.mpr (hIf.bounded i hi))
      have hpermv := hsub.perm_of_length_le
        (by rw [List.length_range, hvlen])
      have h3 := hpermv.map (fun i => stops.getD i default)
      rw [map_getD_range] at h3
      exact h3
    refine ⟨hperm, ?_, hstrict2⟩
    rw [hopt]
    exact hIf.respects

/-- C9 witness: the route-optimizer guarantees instantiated at a concrete
    four-stop list (two riders, one pickup and one dropoff each, first stop
    a pickup). -/
theorem C9_optimizeRoute_safety_witness :
    (optimizeRoute flatDist c9Stops).Perm c9Stops ∧
    routeRespectsPickups [] (optimizeRoute flatDist c9Stops) = true ∧
    optimizeRouteStrict flatDist c9Stops
      = some (optimizeRoute flatDist c9Stops) :=
  C9_optimizeRoute_safety flatDist c9Stops
    (by with_unfolding_all decide) (by with_unfolding_all rfl)

end AirCab
